import Mathlib

/-!
Verification of the RakshaNetra continuous-authorization core:
the tamper-evident audit log (backend/modules/audit_logger.py),
the risk-scoring engine and session manager (backend/modules/zero_trust.py),
and the request middleware (backend/middleware/zero_trust_middleware.py).

The audit-log model is parametric in the two cryptographic primitives:
a hash function standing for SHA-256 hex digests and a keyed signing
function standing for HMAC-SHA256 with the configured key.  Everything
else is translated directly from the Python source.
-/

namespace RakshaNetra

/-- The data fields of an audit log entry, exactly the dictionary built at
the start of TamperProofAuditLog.log_event before the hash/signature fields
are added.  Optional columns hold None/null when absent; metadata holds the
already-serialized JSON string (json.dumps(metadata)) or null. -/
structure LogData where
  event_id : String
  timestamp : String
  event_type : String
  actor : String
  action : String
  status : String
  actor_ip : Option String
  resource_type : Option String
  resource_id : Option String
  details : Option String
  metadata : Option String
deriving DecidableEq

/-- JSON escaping of a single character, as json.dumps does for the
characters that occur in practice. -/
def jsonEscapeChar (c : Char) : String :=
  if c = '\"' then "\\\""
  else if c = '\\' then "\\\\"
  else if c = '\n' then "\\n"
  else if c = '\t' then "\\t"
  else if c = '\r' then "\\r"
  else String.singleton c

/-- JSON escaping of a string body. -/
def jsonEscape (s : String) : String :=
  String.join (s.data.map jsonEscapeChar)

/-- A JSON string literal. -/
def jsonString (s : String) : String :=
  "\"" ++ jsonEscape s ++ "\""

/-- A JSON string-or-null value (Python None serializes as null). -/
def jsonOptString : Option String → String
  | none => "null"
  | some s => jsonString s

/-- Body of the canonical serialization: json.dumps(log_entry, sort_keys=True)
lists the eleven data keys in sorted order with the default ", " and ": "
separators. -/
def canonicalBody (d : LogData) : String :=
  "\"action\": " ++ jsonString d.action ++ ", " ++
  "\"actor\": " ++ jsonString d.actor ++ ", " ++
  "\"actor_ip\": " ++ jsonOptString d.actor_ip ++ ", " ++
  "\"details\": " ++ jsonOptString d.details ++ ", " ++
  "\"event_id\": " ++ jsonString d.event_id ++ ", " ++
  "\"event_type\": " ++ jsonString d.event_type ++ ", " ++
  "\"metadata\": " ++ jsonOptString d.metadata ++ ", " ++
  "\"resource_id\": " ++ jsonOptString d.resource_id ++ ", " ++
  "\"resource_type\": " ++ jsonOptString d.resource_type ++ ", " ++
  "\"status\": " ++ jsonString d.status ++ ", " ++
  "\"timestamp\": " ++ jsonString d.timestamp

/-- Canonical (sorted-key) JSON serialization of the entry data, the exact
string fed to hashlib.sha256 in TamperProofAuditLog._calculate_log_hash. -/
def canonicalString (d : LogData) : String :=
  "\x7b" ++ canonicalBody d ++ "\x7d"

/-- The byte string hashed to obtain the genesis value in
_get_last_log_hash: sha256(b"RAKSHANETRA_GENESIS_BLOCK"). -/
def GENESIS_INPUT : String := "RAKSHANETRA_GENESIS_BLOCK"

/-- Genesis hash returned by _get_last_log_hash on an empty table. -/
def genesisHash (hash : String → String) : String :=
  hash GENESIS_INPUT

/-- Model of _calculate_log_hash: SHA-256 of the canonical serialization. -/
def calculate_log_hash (hash : String → String) (d : LogData) : String :=
  hash (canonicalString d)

/-- Model of _sign_log_entry: HMAC over current_hash, a pipe, and previous_hash.
hmacSign stands for HMAC-SHA256 with the instance key already fixed. -/
def sign_log_entry (hmacSign : String → String) (logHash previousHash : String) : String :=
  hmacSign (logHash ++ "|" ++ previousHash)

/-- One stored row of the audit_log table: the entry data together with the
chain fields written by log_event. -/
structure StoredEntry where
  data : LogData
  previous_hash : String
  current_hash : String
  signature : String
deriving DecidableEq

/-- State of one TamperProofAuditLog instance: the rows of the audit_log
table in insertion (rowid) order, and the in-memory last_log_hash cache. -/
structure AuditState where
  entries : List StoredEntry
  last_log_hash : String
deriving DecidableEq

/-- A freshly constructed logger over an empty table: last_log_hash is the
genesis hash. -/
def initState (hash : String → String) : AuditState :=
  ⟨[], genesisHash hash⟩

/-- A successful log_event call: compute current_hash over the data fields,
take previous_hash from the last_log_hash cache, sign, append the row, and
update the cache. -/
def log_event (hash hmacSign : String → String) (st : AuditState) (d : LogData) : AuditState :=
  let current_hash := calculate_log_hash hash d
  let previous_hash := st.last_log_hash
  let signature := sign_log_entry hmacSign current_hash previous_hash
  { entries := st.entries ++ [⟨d, previous_hash, current_hash, signature⟩]
    last_log_hash := current_hash }

/-- log_event with an explicit audit-store health flag: when the INSERT
fails the exception handler rolls back and re-raises, so the call yields an
error and the state is unchanged. -/
def log_event_store (hash hmacSign : String → String) (storeOk : Bool)
    (st : AuditState) (d : LogData) : Except String AuditState :=
  if storeOk then .ok (log_event hash hmacSign st d)
  else .error "Failed to log event"

/-- A sequence of successful log_event calls. -/
def append_all (hash hmacSign : String → String) (st : AuditState) (ds : List LogData) : AuditState :=
  ds.foldl (log_event hash hmacSign) st

/-- The audit log obtained by running a sequence of successful log_event
calls against a fresh (empty) logger. -/
def buildLog (hash hmacSign : String → String) (ds : List LogData) : AuditState :=
  append_all hash hmacSign (initState hash) ds

/-- One violation record appended to tampering_detected by
verify_log_integrity; we keep the identifying fields (the extra
calculated/stored keys of the Python dicts carry no further information). -/
structure Violation where
  event_id : String
  issue : String
deriving DecidableEq

/-- The three integrity checks verify_log_integrity performs on one row
against the running expected previous hash. -/
def entryViolations (hash hmacSign : String → String) (e : StoredEntry)
    (expectedPrev : String) : List Violation :=
  (if calculate_log_hash hash e.data ≠ e.current_hash
    then [⟨e.data.event_id, "Hash mismatch"⟩] else [])
  ++ (if e.previous_hash ≠ expectedPrev
    then [⟨e.data.event_id, "Chain broken"⟩] else [])
  ++ (if sign_log_entry hmacSign e.current_hash e.previous_hash ≠ e.signature
    then [⟨e.data.event_id, "Signature invalid"⟩] else [])

/-- The verification loop of verify_log_integrity: walk the selected rows in
order, collecting violations; after each row the expected previous hash
becomes that row's stored current_hash. -/
def verifyRows (hash hmacSign : String → String) :
    List StoredEntry → String → List Violation
  | [], _ => []
  | e :: rest, expectedPrev =>
    entryViolations hash hmacSign e expectedPrev
      ++ verifyRows hash hmacSign rest e.current_hash

/-- The dictionary verify_log_integrity returns when rows were found. -/
structure VerificationResult where
  valid : Bool
  entries_checked : Nat
  tampering_detected : List Violation
  last_verified_hash : String
deriving DecidableEq

/-- verify_log_integrity returns either the no-logs-found error dictionary
or a verification report. -/
inductive VerifyOutcome where
  | noLogs
  | report (r : VerificationResult)
deriving DecidableEq

/-- Final expected-previous-hash value after walking the rows (the
last_verified_hash field). -/
def lastFrom (g : String) (l : List StoredEntry) : String :=
  l.foldl (fun _ e => e.current_hash) g

/-- verify_log_integrity: select either the single row with the given
event_id or all rows in insertion order, then run the chain walk starting
from the genesis hash. -/
def verify_log_integrity (hash hmacSign : String → String)
    (entries : List StoredEntry) (eventId : Option String) : VerifyOutcome :=
  let rows := match eventId with
    | none => entries
    | some eid => entries.filter (fun e => e.data.event_id == eid)
  if rows.isEmpty then .noLogs
  else
    let tampering := verifyRows hash hmacSign rows (genesisHash hash)
    .report
      { valid := tampering.isEmpty
        entries_checked := rows.length
        tampering_detected := tampering
        last_verified_hash := lastFrom (genesisHash hash) rows }

/-- Risk levels of ZeroTrustFramework (enum RiskLevel). -/
inductive RiskLevel where
  | TRUSTED
  | LOW_RISK
  | MEDIUM_RISK
  | HIGH_RISK
  | CRITICAL
deriving DecidableEq

/-- Columns of a devices row consulted by calculate_risk_score. -/
structure DeviceRow where
  trust_score : Int
  is_trusted : Bool
  total_sessions : Int
deriving DecidableEq

/-- Columns of a behavior_baseline row consulted by calculate_risk_score
(typical_hours and typical_locations after JSON decoding; a NULL column
decodes to the empty list). -/
structure Baseline where
  typical_hours : List Nat
  typical_locations : List String
deriving DecidableEq

/-- Everything calculate_risk_score reads: the device row for the given
device_id (none when the SELECT finds no row), the location context, the
server UTC hour, the user's baseline row if any, the action, the caller IP
and the count of unresolved anomalies of the trailing 24 hours. -/
structure RiskInput where
  device : Option DeviceRow
  city : String
  country : String
  utc_hour : Nat
  baseline : Option Baseline
  action : String
  ip : String
  recent_anomalies : Nat
deriving DecidableEq

/-- The trusted_locations list of ZeroTrustFramework.__init__. -/
def trusted_locations : List String :=
  ["New Delhi", "Delhi", "Mumbai", "Bangalore", "Chennai",
   "Pune", "Secunderabad", "Lucknow", "Jabalpur", "Chandigarh"]

/-- Model of _check_trusted_network: the simplified startswith test of the source;
str.startswith is modelled on the character data. -/
def check_trusted_network (ip : String) : Bool :=
  List.isPrefixOf "10.".data ip.data
    || List.isPrefixOf "192.168.".data ip.data
    || List.isPrefixOf "172.".data ip.data

/-- Model of _get_recommendation. -/
def get_recommendation (risk_score : Int) : String :=
  if risk_score ≥ 80 then
    "DENY ACCESS - Critical risk detected. Require admin approval and MFA."
  else if risk_score ≥ 60 then
    "CHALLENGE - High risk detected. Require additional MFA verification."
  else if risk_score ≥ 40 then
    "MONITOR - Medium risk. Allow but log all actions closely."
  else if risk_score ≥ 20 then
    "ALLOW - Low risk. Standard monitoring applies."
  else
    "ALLOW - Trusted context. Normal operations."

/-- Factor 1, device trust: delta, trust factors, anomalies. -/
def deviceFactor : Option DeviceRow → Int × List String × List String
  | some dev =>
    let base : Int × List String × List String :=
      if dev.trust_score < 30 then (30, [], ["Untrusted device"])
      else if dev.trust_score < 50 then (20, [], [])
      else if dev.trust_score > 80 && dev.is_trusted then (-10, ["DEVICE_KNOWN"], [])
      else (0, [], [])
    if dev.total_sessions < 3 then
      (base.1 + 10, base.2.1, base.2.2 ++ ["New device (< 3 sessions)"])
    else base
  | none => (30, [], ["Unknown device"])

/-- Factor 2, location analysis. -/
def locationFactor (city country : String) : Int × List String × List String :=
  if country ≠ "India" then
    (25, [], ["Access from foreign country: " ++ country])
  else if city ∈ trusted_locations then
    (-5, ["LOCATION_NORMAL"], [])
  else
    (10, [], [])

/-- Factor 3, time of day, on the IST hour. -/
def timeFactor (ist_hour : Nat) : Int × List String × List String :=
  if ist_hour < 6 || ist_hour > 22 then
    (15, [], ["Unusual access time: " ++ toString ist_hour ++ ":00 IST"])
  else
    (0, ["TIME_NORMAL"], [])

/-- Factor 4, behavioral analysis against the baseline row, when present. -/
def behaviorFactor (ist_hour : Nat) (city : String) :
    Option Baseline → Int × List String × List String
  | some b =>
    let hourPart : Int × List String × List String :=
      if ist_hour ∉ b.typical_hours then
        (10, [], ["Unusual hour compared to user baseline"])
      else (0, ["BEHAVIOR_NORMAL"], [])
    if city ∉ b.typical_locations ∧ b.typical_locations.length > 0 then
      (hourPart.1 + 10, hourPart.2.1,
        hourPart.2.2 ++ ["Unusual location compared to user baseline"])
    else hourPart
  | none => (0, [], [])

/-- Factor 5, action sensitivity. -/
def actionFactor (action : String) : Int :=
  if action ∈ ["export_data", "delete_incident", "change_role", "access_classified"] then 20
  else if action ∈ ["create_incident", "update_incident", "upload_file"] then 10
  else 0

/-- Factor 6, IP reputation. -/
def networkFactor (ip : String) : Int × List String :=
  if check_trusted_network ip then (-10, ["ARMY_NETWORK"]) else (10, [])

/-- Factor 7, recent unresolved anomaly load. -/
def anomalyFactor (recent : Nat) : Int × List String :=
  if recent > 3 then
    (10, ["Multiple recent anomalies: " ++ toString recent])
  else (0, [])

/-- Risk level thresholds applied to the normalized score. -/
def riskLevelOf (risk_score : Int) : RiskLevel :=
  if risk_score ≤ 20 then .TRUSTED
  else if risk_score ≤ 40 then .LOW_RISK
  else if risk_score ≤ 60 then .MEDIUM_RISK
  else if risk_score ≤ 80 then .HIGH_RISK
  else .CRITICAL

/-- The dictionary calculate_risk_score returns. -/
structure RiskAssessment where
  risk_score : Int
  risk_level : RiskLevel
  trust_factors : List String
  anomalies_detected : List String
  requires_mfa : Bool
  requires_approval : Bool
  allow_access : Bool
  recommendation : String
deriving DecidableEq

/-- The accumulated raw score before normalization: the seven factor deltas
added to the initial 0. -/
def rawScore (inp : RiskInput) : Int :=
  let ist_hour := (inp.utc_hour + 5) % 24
  (deviceFactor inp.device).1 + (locationFactor inp.city inp.country).1
    + (timeFactor ist_hour).1 + (behaviorFactor ist_hour inp.city inp.baseline).1
    + actionFactor inp.action + (networkFactor inp.ip).1
    + (anomalyFactor inp.recent_anomalies).1

/-- The trust_factors list, in the order the factors append to it. -/
def trustFactorsOf (inp : RiskInput) : List String :=
  let ist_hour := (inp.utc_hour + 5) % 24
  (deviceFactor inp.device).2.1 ++ (locationFactor inp.city inp.country).2.1
    ++ (timeFactor ist_hour).2.1 ++ (behaviorFactor ist_hour inp.city inp.baseline).2.1
    ++ (networkFactor inp.ip).2

/-- The anomalies list, in the order the factors append to it. -/
def anomaliesOf (inp : RiskInput) : List String :=
  let ist_hour := (inp.utc_hour + 5) % 24
  (deviceFactor inp.device).2.2 ++ (locationFactor inp.city inp.country).2.2
    ++ (timeFactor ist_hour).2.2 ++ (behaviorFactor ist_hour inp.city inp.baseline).2.2
    ++ (anomalyFactor inp.recent_anomalies).2

/-- The tail of calculate_risk_score: normalize the accumulated score with
max(0, min(100, score)) and build the returned dictionary. -/
def mkAssessment (raw : Int) (trust_factors anomalies : List String) : RiskAssessment :=
  let risk_score : Int := max 0 (min 100 raw)
  { risk_score := risk_score
    risk_level := riskLevelOf risk_score
    trust_factors := trust_factors
    anomalies_detected := anomalies
    requires_mfa := risk_score > 60
    requires_approval := risk_score > 80
    allow_access := risk_score < 70
    recommendation := get_recommendation risk_score }

/-- calculate_risk_score: accumulate the seven factor deltas from 0, clamp
to the 0 to 100 range, derive the level and the policy booleans. -/
def calculate_risk_score (inp : RiskInput) : RiskAssessment :=
  mkAssessment (rawScore inp) (trustFactorsOf inp) (anomaliesOf inp)

/-- Columns of a sessions row touched by verify_access and
terminate_session. -/
structure SessionRow where
  session_id : String
  user_id : String
  device_id : String
  ip_address : String
  risk_score : Int
  is_active : Bool
  last_activity : String
  terminated_reason : Option String
deriving DecidableEq

/-- One access_requests row. -/
structure AccessRequestRow where
  session_id : String
  user_id : String
  resource : String
  action : String
  timestamp : String
  risk_score : Int
  decision : String
deriving DecidableEq

/-- The location and clock context a verify_access call runs under. -/
structure ZTContext where
  city : String
  country : String
  utc_hour : Nat
deriving DecidableEq

/-- State of the zero-trust store consulted by verify_access: devices,
sessions, baselines, the per-user count of unresolved recent anomalies, and
the access_requests audit rows. -/
structure ZTState where
  devices : List (String × DeviceRow)
  sessions : List SessionRow
  baselines : List (String × Baseline)
  anomaly_counts : List (String × Nat)
  access_requests : List AccessRequestRow
deriving DecidableEq

/-- SELECT from devices by device_id. -/
def lookupDevice (st : ZTState) (device_id : String) : Option DeviceRow :=
  (st.devices.find? (fun p => p.1 == device_id)).map (fun p => p.2)

/-- SELECT from behavior_baseline by user_id. -/
def lookupBaseline (st : ZTState) (user_id : String) : Option Baseline :=
  (st.baselines.find? (fun p => p.1 == user_id)).map (fun p => p.2)

/-- SELECT COUNT of recent unresolved anomalies for the user. -/
def lookupAnomalyCount (st : ZTState) (user_id : String) : Nat :=
  ((st.anomaly_counts.find? (fun p => p.1 == user_id)).map (fun p => p.2)).getD 0

/-- The two shapes verify_access can return: the invalid-session dictionary
(allowed False, reason, risk_score 100, requires_reauth True) or the
decision envelope built from a fresh risk assessment. -/
inductive VerifyResult where
  | invalidSession
  | decision (a : RiskAssessment)
deriving DecidableEq

/-- The allowed field of the returned dictionary. -/
def VerifyResult.allowed : VerifyResult → Bool
  | .invalidSession => false
  | .decision a => a.allow_access

/-- verify_access: look up an active session with the given id; if none,
return the invalid-session dictionary; otherwise re-score for this specific
action and resource, record the access request, update the session row, and
return the envelope. -/
def verify_access (st : ZTState) (session_id user_id action resource : String)
    (ctx : ZTContext) (timestamp : String) : VerifyResult × ZTState :=
  match st.sessions.find? (fun s => s.session_id == session_id && s.is_active) with
  | none => (.invalidSession, st)
  | some s =>
    let a := calculate_risk_score
      { device := lookupDevice st s.device_id
        city := ctx.city
        country := ctx.country
        utc_hour := ctx.utc_hour
        baseline := lookupBaseline st user_id
        action := action
        ip := s.ip_address
        recent_anomalies := lookupAnomalyCount st user_id }
    let decision := if a.allow_access then "ALLOW" else "DENY"
    let req : AccessRequestRow :=
      ⟨session_id, user_id, resource, action, timestamp, a.risk_score, decision⟩
    let sessions' := st.sessions.map (fun t =>
      if t.session_id == session_id then
        { t with last_activity := timestamp, risk_score := a.risk_score }
      else t)
    (.decision a,
      { st with sessions := sessions', access_requests := st.access_requests ++ [req] })

/-- terminate_session: UPDATE sessions SET is_active = 0,
terminated_reason = reason WHERE session_id matches. -/
def terminate_session (st : ZTState) (session_id reason : String) : ZTState :=
  { st with sessions := st.sessions.map (fun s =>
      if s.session_id == session_id then
        { s with is_active := false, terminated_reason := some reason }
      else s) }

/-- Outcome of one ZeroTrustMiddleware.__call__ for an authenticated
request: whether the request was forwarded to the application handler
(call_next ran, so the action proceeds) and whether an audit row for the
decision was durably written. -/
structure MWResult where
  allowed : Bool
  audited : Bool
deriving DecidableEq

/-- The decision section of ZeroTrustMiddleware.__call__ around the risk
threshold, including the enclosing catch-all handler: when the computed
risk_score is at least 70 the middleware logs an ACCESS_DENIED audit event
and returns the 403 payload; if that log_event raises (audit store down),
the outer except block swallows the error and runs call_next, so the
request proceeds unaudited.  Below the threshold the request is processed
and then a success audit event is attempted; if that raises, the except
block again runs call_next and the request proceeds unaudited. -/
def middleware_call (hash hmacSign : String → String) (auditStoreOk : Bool)
    (audit : AuditState) (risk_score : Int)
    (deniedEvent successEvent : LogData) : MWResult × AuditState :=
  if risk_score ≥ 70 then
    match log_event_store hash hmacSign auditStoreOk audit deniedEvent with
    | .ok audit' => (⟨false, true⟩, audit')
    | .error _ => (⟨true, false⟩, audit)
  else
    match log_event_store hash hmacSign auditStoreOk audit successEvent with
    | .ok audit' => (⟨true, true⟩, audit')
    | .error _ => (⟨true, false⟩, audit)

/-- Progress of one thread running log_event: before reading the
last_log_hash cache, after reading it into the local previous_hash
variable, or finished. -/
inductive ThreadPhase where
  | ready
  | readDone (previous_hash : String)
  | finished
deriving DecidableEq

/-- One concurrent log_event caller and its pending entry data. -/
structure ConcThread where
  data : LogData
  phase : ThreadPhase
deriving DecidableEq

/-- The shared logger state together with the per-thread states. -/
structure ConcSystem where
  audit : AuditState
  threads : List ConcThread
deriving DecidableEq

/-- One atomic step of a thread inside log_event.  The read step is the
line taking previous_hash from self.last_log_hash; the write step is the
INSERT plus commit plus the cache update to current_hash.  log_event takes
no lock, so steps of different threads interleave freely. -/
def stepThread (hash hmacSign : String → String) (st : AuditState) :
    ConcThread → AuditState × ConcThread
  | ⟨d, .ready⟩ => (st, ⟨d, .readDone st.last_log_hash⟩)
  | ⟨d, .readDone previous_hash⟩ =>
    let current_hash := calculate_log_hash hash d
    let signature := sign_log_entry hmacSign current_hash previous_hash
    ({ entries := st.entries ++ [⟨d, previous_hash, current_hash, signature⟩]
       last_log_hash := current_hash },
      ⟨d, .finished⟩)
  | ⟨d, .finished⟩ => (st, ⟨d, .finished⟩)

/-- Run one step of the thread at index t, if it exists. -/
def concStep (hash hmacSign : String → String) (sys : ConcSystem) (t : Nat) : ConcSystem :=
  match sys.threads.get? t with
  | none => sys
  | some th =>
    let p := stepThread hash hmacSign sys.audit th
    { audit := p.1, threads := sys.threads.set t p.2 }

/-- Run a whole schedule (a list of thread indices). -/
def runSched (hash hmacSign : String → String) (sys : ConcSystem)
    (sched : List Nat) : ConcSystem :=
  sched.foldl (concStep hash hmacSign) sys

/-- The chaining invariant of a row list: each row's previous_hash is the
running hash, which then becomes that row's current_hash; the argument
starts at the genesis hash. -/
def chainFrom : List StoredEntry → String → Bool
  | [], _ => true
  | e :: rest, p => (e.previous_hash == p) && chainFrom rest e.current_hash

/-- A well-formed row: its stored current_hash is the hash of its data and
its signature is the HMAC over current_hash and previous_hash. -/
def wfEntry (hash hmacSign : String → String) (e : StoredEntry) : Bool :=
  (e.current_hash == calculate_log_hash hash e.data)
    && (e.signature == sign_log_entry hmacSign e.current_hash e.previous_hash)

/-- The logger invariant: the rows chain from the genesis hash, the
last_log_hash cache equals the last row's current_hash (or genesis), and
every row is well formed. -/
def goodState (hash hmacSign : String → String) (st : AuditState) : Prop :=
  chainFrom st.entries (genesisHash hash) = true
    ∧ st.last_log_hash = lastFrom (genesisHash hash) st.entries
    ∧ ∀ e ∈ st.entries, wfEntry hash hmacSign e = true

/-- A change to exactly one stored field of a row lands in exactly one of
these four cases: one of the eleven data columns changed, or the
previous_hash, current_hash or signature column changed, the other
components staying equal. -/
def singleFieldCorrupt (orig e' : StoredEntry) : Prop :=
  (e'.data ≠ orig.data ∧ e'.previous_hash = orig.previous_hash
      ∧ e'.current_hash = orig.current_hash ∧ e'.signature = orig.signature)
    ∨ (e'.data = orig.data ∧ e'.previous_hash ≠ orig.previous_hash
      ∧ e'.current_hash = orig.current_hash ∧ e'.signature = orig.signature)
    ∨ (e'.data = orig.data ∧ e'.previous_hash = orig.previous_hash
      ∧ e'.current_hash ≠ orig.current_hash ∧ e'.signature = orig.signature)
    ∨ (e'.data = orig.data ∧ e'.previous_hash = orig.previous_hash
      ∧ e'.current_hash = orig.current_hash ∧ e'.signature ≠ orig.signature)

instance (orig e' : StoredEntry) : Decidable (singleFieldCorrupt orig e') := by
  unfold singleFieldCorrupt
  infer_instance

/-- Identity stand-in for the hash and signing primitives, used to evaluate
the parametric theorems on concrete inputs. -/
def hid : String → String := fun s => s

/-- Sample audit entry data. -/
def dA : LogData :=
  ⟨"AUD-1", "t1", "LOGIN_SUCCESS", "alice", "login", "success",
    none, none, none, none, none⟩

/-- Sample audit entry data. -/
def dB : LogData :=
  ⟨"AUD-2", "t2", "INCIDENT_VIEWED", "bob", "view", "success",
    some "1.2.3.4", none, none, none, none⟩

/-- Sample audit entry data. -/
def dC : LogData :=
  ⟨"AUD-3", "t3", "INCIDENT_CREATED", "carol", "create", "success",
    none, some "incident", some "42", none, none⟩

/-- Sample audit entry data. -/
def dD : LogData :=
  ⟨"AUD-4", "t4", "FILE_UPLOADED", "dave", "upload", "success",
    none, none, none, some "evidence", none⟩

/-- Sample audit entry data. -/
def dE : LogData :=
  ⟨"AUD-5", "t5", "DATA_EXPORT", "eve", "export", "denied",
    none, none, none, none, none⟩

/-- A five-event history for the corruption scenario of the spec. -/
def dsFive : List LogData := [dA, dB, dC, dD, dE]

/-- The fifth stored row of the five-event log built with the identity
primitives. -/
def entryFive : StoredEntry :=
  (buildLog hid hid dsFive).entries.getD 4 ⟨dA, "", "", ""⟩

/-- The fifth row with only its action column overwritten. -/
def corruptFive : StoredEntry :=
  { entryFive with data := { entryFive.data with action := "tampered" } }

/-- An inactive stored session. -/
def sessInactive : SessionRow :=
  ⟨"S1", "u1", "dev1", "1.2.3.4", 0, false, "t0", some "User logout"⟩

/-- A zero-trust store holding just the inactive session. -/
def ztSample : ZTState := ⟨[], [sessInactive], [], [], []⟩

theorem lastFrom_cons (g : String) (e : StoredEntry) (l : List StoredEntry) :
    lastFrom g (e :: l) = lastFrom e.current_hash l := rfl

theorem lastFrom_append_one (g : String) (l : List StoredEntry) (e : StoredEntry) :
    lastFrom g (l ++ [e]) = e.current_hash := by
  simp [lastFrom, List.foldl_append]

theorem chainFrom_append_one (l : List StoredEntry) (e : StoredEntry) (g : String) :
    chainFrom (l ++ [e]) g = (chainFrom l g && (e.previous_hash == lastFrom g l)) := by
  induction l generalizing g with
  | nil => simp [chainFrom, lastFrom]
  | cons x xs ih => simp [chainFrom, lastFrom_cons, ih, Bool.and_assoc]

theorem goodState_initState (hash hmacSign : String → String) :
    goodState hash hmacSign (initState hash) := by
  refine ⟨rfl, rfl, ?_⟩
  intro e he
  simp [initState] at he

theorem goodState_log_event (hash hmacSign : String → String) (st : AuditState)
    (h : goodState hash hmacSign st) (d : LogData) :
    goodState hash hmacSign (log_event hash hmacSign st d) := by
  obtain ⟨hc, hl, hw⟩ := h
  refine ⟨?_, ?_, ?_⟩
  · simp [log_event, chainFrom_append_one, hc, hl]
  · simp [log_event, lastFrom_append_one]
  · intro e he
    simp [log_event] at he
    rcases he with he | he
    · exact hw e he
    · subst he
      simp [wfEntry]

theorem goodState_append_all (hash hmacSign : String → String) (ds : List LogData) :
    ∀ st : AuditState, goodState hash hmacSign st →
      goodState hash hmacSign (append_all hash hmacSign st ds) := by
  induction ds with
  | nil => exact fun st h => h
  | cons d ds ih =>
    exact fun st h => ih _ (goodState_log_event hash hmacSign st h d)

theorem goodState_buildLog (hash hmacSign : String → String) (ds : List LogData) :
    goodState hash hmacSign (buildLog hash hmacSign ds) :=
  goodState_append_all hash hmacSign ds _ (goodState_initState hash hmacSign)

theorem chainFrom_head (e : StoredEntry) (l : List StoredEntry) (p : String)
    (h : chainFrom (e :: l) p = true) : e.previous_hash = p := by
  simp [chainFrom] at h
  exact h.1

theorem chainFrom_tail (e : StoredEntry) (l : List StoredEntry) (p : String)
    (h : chainFrom (e :: l) p = true) : chainFrom l e.current_hash = true := by
  simp [chainFrom] at h
  exact h.2

theorem chainFrom_get_zero (l : List StoredEntry) (p : String)
    (h : chainFrom l p = true) (h0 : 0 < l.length) :
    (l.get ⟨0, h0⟩).previous_hash = p := by
  cases l with
  | nil => simp at h0
  | cons e rest => exact chainFrom_head e rest p h

theorem chainFrom_get_succ (l : List StoredEntry) (p : String)
    (h : chainFrom l p = true) :
    ∀ i : Nat, ∀ hi : i + 1 < l.length,
      (l.get ⟨i + 1, hi⟩).previous_hash
        = (l.get ⟨i, Nat.lt_of_succ_lt hi⟩).current_hash := by
  induction l generalizing p with
  | nil =>
    intro i hi
    simp at hi
  | cons e rest ih =>
    intro i hi
    cases i with
    | zero =>
      have h0 : 0 < rest.length := Nat.lt_of_succ_lt_succ hi
      exact chainFrom_get_zero rest e.current_hash (chainFrom_tail e rest p h) h0
    | succ j =>
      have hj : j + 1 < rest.length := Nat.lt_of_succ_lt_succ hi
      exact ih e.current_hash (chainFrom_tail e rest p h) j hj

/-- C1: after any sequence of successful log_event calls starting from an
empty audit log, the first entry's previous_hash is the genesis constant
SHA-256 of RAKSHANETRA_GENESIS_BLOCK, and every later entry's
previous_hash equals the current_hash of the immediately preceding
entry. -/
theorem audit_chain_invariant (hash hmacSign : String → String) (ds : List LogData) :
    (∀ h0 : 0 < (buildLog hash hmacSign ds).entries.length,
        ((buildLog hash hmacSign ds).entries.get ⟨0, h0⟩).previous_hash = genesisHash hash)
    ∧ ∀ i : Nat, ∀ hi : i + 1 < (buildLog hash hmacSign ds).entries.length,
        ((buildLog hash hmacSign ds).entries.get ⟨i + 1, hi⟩).previous_hash
          = ((buildLog hash hmacSign ds).entries.get
              ⟨i, Nat.lt_of_succ_lt hi⟩).current_hash := by
  have hg := goodState_buildLog hash hmacSign ds
  exact ⟨fun h0 => chainFrom_get_zero _ _ hg.1 h0,
    fun i hi => chainFrom_get_succ _ _ hg.1 i hi⟩

/-- Witness for C1: the concrete two-event log with the identity
primitives. -/
theorem audit_chain_invariant_w :
    ((buildLog hid hid [dA, dB]).entries.get ⟨0, by decide⟩).previous_hash = genesisHash hid
    ∧ ((buildLog hid hid [dA, dB]).entries.get ⟨1, by decide⟩).previous_hash
        = ((buildLog hid hid [dA, dB]).entries.get ⟨0, by decide⟩).current_hash :=
  ⟨(audit_chain_invariant hid hid [dA, dB]).1 (by decide),
    (audit_chain_invariant hid hid [dA, dB]).2 0 (by decide)⟩

theorem entryViolations_eq_nil (hash hmacSign : String → String) (e : StoredEntry) (p : String)
    (hwf : wfEntry hash hmacSign e = true) (hp : e.previous_hash = p) :
    entryViolations hash hmacSign e p = [] := by
  simp [wfEntry] at hwf
  simp [entryViolations, hwf.1, hwf.2, hp]

theorem verifyRows_eq_nil (hash hmacSign : String → String) (l : List StoredEntry) (p : String)
    (hwf : ∀ e ∈ l, wfEntry hash hmacSign e = true) (hchain : chainFrom l p = true) :
    verifyRows hash hmacSign l p = [] := by
  induction l generalizing p with
  | nil => rfl
  | cons e rest ih =>
    have h1 := chainFrom_head e rest p hchain
    have h2 := chainFrom_tail e rest p hchain
    simp [verifyRows,
      entryViolations_eq_nil hash hmacSign e p (hwf e (by simp)) h1]
    exact ih e.current_hash (fun x hx => hwf x (List.mem_cons_of_mem e hx)) h2

theorem append_all_entries_data (hash hmacSign : String → String) (ds : List LogData) :
    ∀ st : AuditState,
      (append_all hash hmacSign st ds).entries.map (fun e => e.data)
        = st.entries.map (fun e => e.data) ++ ds := by
  induction ds with
  | nil =>
    intro st
    simp [append_all]
  | cons d ds ih =>
    intro st
    show (append_all hash hmacSign (log_event hash hmacSign st d) ds).entries.map _ = _
    rw [ih]
    simp [log_event]

theorem buildLog_entries_data (hash hmacSign : String → String) (ds : List LogData) :
    (buildLog hash hmacSign ds).entries.map (fun e => e.data) = ds := by
  have h := append_all_entries_data hash hmacSign ds (initState hash)
  simpa [initState, buildLog] using h

theorem buildLog_length (hash hmacSign : String → String) (ds : List LogData) :
    (buildLog hash hmacSign ds).entries.length = ds.length := by
  have h := congrArg List.length (buildLog_entries_data hash hmacSign ds)
  simpa using h

theorem verify_log_integrity_all (hash hmacSign : String → String)
    (entries : List StoredEntry) (hne : entries ≠ []) :
    verify_log_integrity hash hmacSign entries none
      = .report
          { valid := (verifyRows hash hmacSign entries (genesisHash hash)).isEmpty
            entries_checked := entries.length
            tampering_detected := verifyRows hash hmacSign entries (genesisHash hash)
            last_verified_hash := lastFrom (genesisHash hash) entries } := by
  cases entries with
  | nil => cases hne rfl
  | cons e l => rfl

/-- C2: every entry written by log_event stores as current_hash the
SHA-256 of the canonical sorted-key serialization of its data fields
(hash and signature fields excluded), and verify_log_integrity on an
untouched log with at least one entry reports valid with zero
violations. -/
theorem audit_untouched_log_verifies (hash hmacSign : String → String) (ds : List LogData)
    (hne : ds ≠ []) :
    (∀ e ∈ (buildLog hash hmacSign ds).entries,
        e.current_hash = hash (canonicalString e.data))
    ∧ verify_log_integrity hash hmacSign (buildLog hash hmacSign ds).entries none
        = .report
            { valid := true
              entries_checked := ds.length
              tampering_detected := []
              last_verified_hash := (buildLog hash hmacSign ds).last_log_hash } := by
  have hg := goodState_buildLog hash hmacSign ds
  constructor
  · intro e he
    have hw := hg.2.2 e he
    simp [wfEntry] at hw
    exact hw.1
  · have hrows : (buildLog hash hmacSign ds).entries ≠ [] := by
      intro h
      apply hne
      have hd := buildLog_entries_data hash hmacSign ds
      rw [h] at hd
      simpa using hd.symm
    rw [verify_log_integrity_all hash hmacSign _ hrows]
    rw [verifyRows_eq_nil hash hmacSign _ _ hg.2.2 hg.1]
    rw [buildLog_length hash hmacSign ds, ← hg.2.1]
    rfl

/-- Witness for C2: the concrete two-event log with the identity
primitives verifies cleanly. -/
theorem audit_untouched_log_verifies_w :
    verify_log_integrity hid hid (buildLog hid hid [dA, dB]).entries none
      = .report
          { valid := true
            entries_checked := 2
            tampering_detected := []
            last_verified_hash := (buildLog hid hid [dA, dB]).last_log_hash } :=
  (audit_untouched_log_verifies hid hid [dA, dB] (by decide)).2

theorem hashMismatch_mem (hash hmacSign : String → String) (e : StoredEntry) (p : String)
    (h1 : calculate_log_hash hash e.data ≠ e.current_hash) :
    (⟨e.data.event_id, "Hash mismatch"⟩ : Violation) ∈ entryViolations hash hmacSign e p := by
  apply List.mem_append_left
  simp [h1]

theorem chainBroken_mem (hash hmacSign : String → String) (e : StoredEntry) (p : String)
    (h2 : e.previous_hash ≠ p) :
    (⟨e.data.event_id, "Chain broken"⟩ : Violation) ∈ entryViolations hash hmacSign e p := by
  apply List.mem_append_left
  apply List.mem_append_right
  simp [h2]

theorem sigInvalid_mem (hash hmacSign : String → String) (e : StoredEntry) (p : String)
    (h3 : sign_log_entry hmacSign e.current_hash e.previous_hash ≠ e.signature) :
    (⟨e.data.event_id, "Signature invalid"⟩ : Violation) ∈ entryViolations hash hmacSign e p := by
  apply List.mem_append_right
  simp [h3]

theorem corrupt_mem_violations (hash hmacSign : String → String) :
    ∀ (l : List StoredEntry) (p : String) (i : Nat) (hi : i < l.length) (e' : StoredEntry),
      (∀ e ∈ l, wfEntry hash hmacSign e = true) →
      chainFrom l p = true →
      (hash (canonicalString e'.data) = hash (canonicalString (l.get ⟨i, hi⟩).data)
        → e'.data = (l.get ⟨i, hi⟩).data) →
      singleFieldCorrupt (l.get ⟨i, hi⟩) e' →
      ∃ v ∈ verifyRows hash hmacSign (l.set i e') p, v.event_id = e'.data.event_id := by
  intro l
  induction l with
  | nil =>
    intro p i hi
    simp at hi
  | cons x xs ih =>
    intro p i hi e' hwf hchain hcol hcor
    cases i with
    | zero =>
      have hx := hwf x (List.mem_cons_self x xs)
      simp [wfEntry] at hx
      have hget : ((x :: xs).get ⟨0, hi⟩) = x := rfl
      rw [hget] at hcol hcor
      have hmem : ∃ v ∈ entryViolations hash hmacSign e' p,
          v.event_id = e'.data.event_id := by
        rcases hcor with ⟨hd, hp, hc, hs⟩ | ⟨hd, hp, hc, hs⟩
          | ⟨hd, hp, hc, hs⟩ | ⟨hd, hp, hc, hs⟩
        · refine ⟨⟨e'.data.event_id, "Hash mismatch"⟩,
            hashMismatch_mem hash hmacSign e' p ?_, rfl⟩
          rw [hc, hx.1]
          exact fun hbad => hd (hcol hbad)
        · refine ⟨⟨e'.data.event_id, "Chain broken"⟩,
            chainBroken_mem hash hmacSign e' p ?_, rfl⟩
          rw [← chainFrom_head x xs p hchain]
          exact hp
        · refine ⟨⟨e'.data.event_id, "Hash mismatch"⟩,
            hashMismatch_mem hash hmacSign e' p ?_, rfl⟩
          rw [hd, ← hx.1]
          exact fun hbad => hc hbad.symm
        · refine ⟨⟨e'.data.event_id, "Signature invalid"⟩,
            sigInvalid_mem hash hmacSign e' p ?_, rfl⟩
          rw [hc, hp, ← hx.2]
          exact fun hbad => hs hbad.symm
      obtain ⟨v, hv, hveq⟩ := hmem
      refine ⟨v, ?_, hveq⟩
      show v ∈ verifyRows hash hmacSign ((x :: xs).set 0 e') p
      rw [List.set_cons_zero]
      exact List.mem_append_left _ hv
    | succ j =>
      have hj : j < xs.length := Nat.lt_of_succ_lt_succ hi
      have hget : ((x :: xs).get ⟨j + 1, hi⟩) = xs.get ⟨j, hj⟩ := rfl
      rw [hget] at hcol hcor
      obtain ⟨v, hv, hveq⟩ := ih x.current_hash j hj e'
        (fun e he => hwf e (List.mem_cons_of_mem x he))
        (chainFrom_tail x xs p hchain) hcol hcor
      refine ⟨v, ?_, hveq⟩
      show v ∈ verifyRows hash hmacSign ((x :: xs).set (j + 1) e') p
      rw [List.set_cons_succ]
      exact List.mem_append_right _ hv

/-- C3: overwriting exactly one stored field of exactly one entry of a
previously valid audit log (assuming no hash collision between the old and
new data fields) makes verify_log_integrity report valid equal to false
with at least one violation carrying that entry's stored event_id. -/
theorem audit_single_field_corruption_detected (hash hmacSign : String → String)
    (ds : List LogData) (i : Nat) (e' : StoredEntry)
    (hi : i < (buildLog hash hmacSign ds).entries.length)
    (hcol : hash (canonicalString e'.data)
        = hash (canonicalString ((buildLog hash hmacSign ds).entries.get ⟨i, hi⟩).data)
      → e'.data = ((buildLog hash hmacSign ds).entries.get ⟨i, hi⟩).data)
    (hcor : singleFieldCorrupt ((buildLog hash hmacSign ds).entries.get ⟨i, hi⟩) e') :
    ∃ r, verify_log_integrity hash hmacSign
          ((buildLog hash hmacSign ds).entries.set i e') none = .report r
      ∧ r.valid = false
      ∧ ∃ v ∈ r.tampering_detected, v.event_id = e'.data.event_id := by
  have hg := goodState_buildLog hash hmacSign ds
  obtain ⟨v, hv, hveq⟩ := corrupt_mem_violations hash hmacSign _ (genesisHash hash)
    i hi e' hg.2.2 hg.1 hcol hcor
  have hne : (buildLog hash hmacSign ds).entries.set i e' ≠ [] := by
    intro h
    rw [h] at hv
    simp [verifyRows] at hv
  refine ⟨_, verify_log_integrity_all hash hmacSign _ hne, ?_, ⟨v, hv, hveq⟩⟩
  show (verifyRows hash hmacSign ((buildLog hash hmacSign ds).entries.set i e')
    (genesisHash hash)).isEmpty = false
  obtain ⟨a, t, hlt⟩ := List.exists_cons_of_ne_nil (List.ne_nil_of_mem hv)
  rw [hlt]
  rfl

set_option maxRecDepth 100000 in
/-- Witness for C3: corrupting the action column of entry number five of a
concrete five-event log yields an invalid report naming event AUD-5. -/
theorem audit_single_field_corruption_detected_w :
    ∃ r, verify_log_integrity hid hid
          ((buildLog hid hid dsFive).entries.set 4 corruptFive) none = .report r
      ∧ r.valid = false
      ∧ ∃ v ∈ r.tampering_detected, v.event_id = corruptFive.data.event_id :=
  audit_single_field_corruption_detected hid hid dsFive 4 corruptFive
    (by decide) (by decide) (by decide)

theorem canonicalString_head (d : LogData) :
    (canonicalString d).data.head? = some '\x7b' := by
  show (("\x7b" ++ canonicalBody d ++ "\x7d").data).head? = _
  rw [String.data_append, String.data_append]
  rfl

theorem canonicalString_ne_genesis (d : LogData) :
    canonicalString d ≠ GENESIS_INPUT := by
  intro h
  have h1 := congrArg (fun s => s.data.head?) h
  simp only at h1
  rw [canonicalString_head] at h1
  have h2 : GENESIS_INPUT.data.head? = some 'R' := rfl
  rw [h2] at h1
  simp at h1

theorem filter_beq_get_singleton {α β : Type} [DecidableEq β] (f : α → β) :
    ∀ (l : List α) (i : Nat) (hi : i < l.length), (l.map f).Nodup →
      l.filter (fun x => f x == f (l.get ⟨i, hi⟩)) = [l.get ⟨i, hi⟩] := by
  intro l
  induction l with
  | nil =>
    intro i hi
    simp at hi
  | cons a l ih =>
    intro i hi hnd
    simp only [List.map_cons, List.nodup_cons] at hnd
    cases i with
    | zero =>
      show (a :: l).filter (fun x => f x == f a) = [a]
      rw [List.filter_cons]
      simp only [beq_self_eq_true, if_pos]
      have hnil : l.filter (fun x => f x == f a) = [] := by
        rw [List.filter_eq_nil_iff]
        intro x hx
        simp only [beq_iff_eq]
        intro hfx
        exact hnd.1 (hfx ▸ List.mem_map_of_mem f hx)
      rw [hnil]
    | succ j =>
      have hj : j < l.length := Nat.lt_of_succ_lt_succ hi
      show (a :: l).filter (fun x => f x == f (l.get ⟨j, hj⟩)) = [l.get ⟨j, hj⟩]
      rw [List.filter_cons]
      have hne : (f a == f (l.get ⟨j, hj⟩)) = false := by
        simp only [beq_eq_false_iff_ne, ne_eq]
        intro heq
        exact hnd.1 (heq ▸ List.mem_map_of_mem f (List.get_mem l j hj))
      rw [hne]
      simp only [Bool.false_eq_true, if_neg, not_false_iff]
      exact ih j hj hnd.2

theorem buildLog_event_ids (hash hmacSign : String → String) (ds : List LogData) :
    (buildLog hash hmacSign ds).entries.map (fun e => e.data.event_id)
      = ds.map LogData.event_id := by
  conv_rhs => rw [← buildLog_entries_data hash hmacSign ds]
  rw [List.map_map]
  rfl

theorem verify_log_integrity_some_eq (hash hmacSign : String → String)
    (entries : List StoredEntry) (eid : String) (e : StoredEntry)
    (hfil : entries.filter (fun x => x.data.event_id == eid) = [e]) :
    verify_log_integrity hash hmacSign entries (some eid)
      = .report
          { valid := (entryViolations hash hmacSign e (genesisHash hash)).isEmpty
            entries_checked := 1
            tampering_detected := entryViolations hash hmacSign e (genesisHash hash)
            last_verified_hash := e.current_hash } := by
  unfold verify_log_integrity
  simp only [hfil]
  simp [verifyRows, lastFrom]

/-- C10: on an untampered log with at least two entries, single-entry
verification of any entry other than the first reports valid equal to
false with a Chain broken violation for that entry, because the expected
previous hash is initialized to the genesis constant rather than the
preceding entry's current_hash. -/
theorem audit_single_entry_verification_breaks_chain (hash hmacSign : String → String)
    (hinj : Function.Injective hash) (ds : List LogData)
    (hnodup : (ds.map LogData.event_id).Nodup)
    (i : Nat) (hi : i < (buildLog hash hmacSign ds).entries.length) (h1 : 1 ≤ i) :
    verify_log_integrity hash hmacSign (buildLog hash hmacSign ds).entries
        (some (((buildLog hash hmacSign ds).entries.get ⟨i, hi⟩).data.event_id))
      = .report
          { valid := false
            entries_checked := 1
            tampering_detected :=
              [⟨((buildLog hash hmacSign ds).entries.get ⟨i, hi⟩).data.event_id,
                "Chain broken"⟩]
            last_verified_hash :=
              ((buildLog hash hmacSign ds).entries.get ⟨i, hi⟩).current_hash } := by
  have hg := goodState_buildLog hash hmacSign ds
  obtain ⟨j, rfl⟩ : ∃ j, i = j + 1 := ⟨i - 1, by omega⟩
  have hj : j < (buildLog hash hmacSign ds).entries.length := Nat.lt_of_succ_lt hi
  have hwfe := hg.2.2 ((buildLog hash hmacSign ds).entries.get ⟨j + 1, hi⟩)
    (List.get_mem _ _ _)
  simp only [wfEntry, Bool.and_eq_true, beq_iff_eq] at hwfe
  have hwfj := hg.2.2 ((buildLog hash hmacSign ds).entries.get ⟨j, hj⟩)
    (List.get_mem _ _ _)
  simp only [wfEntry, Bool.and_eq_true, beq_iff_eq] at hwfj
  have hprev : ((buildLog hash hmacSign ds).entries.get ⟨j + 1, hi⟩).previous_hash
      = ((buildLog hash hmacSign ds).entries.get ⟨j, hj⟩).current_hash :=
    chainFrom_get_succ _ _ hg.1 j hi
  have hprev_ne : ((buildLog hash hmacSign ds).entries.get ⟨j + 1, hi⟩).previous_hash
      ≠ genesisHash hash := by
    rw [hprev, hwfj.1]
    intro hbad
    exact canonicalString_ne_genesis _ (hinj hbad)
  have hfil := filter_beq_get_singleton (fun e => e.data.event_id)
    (buildLog hash hmacSign ds).entries (j + 1) hi
    (by rw [buildLog_event_ids hash hmacSign ds]; exact hnodup)
  have hEV : entryViolations hash hmacSign
      ((buildLog hash hmacSign ds).entries.get ⟨j + 1, hi⟩) (genesisHash hash)
      = [⟨((buildLog hash hmacSign ds).entries.get ⟨j + 1, hi⟩).data.event_id,
          "Chain broken"⟩] := by
    unfold entryViolations
    rw [if_neg (fun h => h hwfe.1.symm), if_pos hprev_ne,
      if_neg (fun h => h hwfe.2.symm)]
    simp
  rw [verify_log_integrity_some_eq hash hmacSign _ _ _ hfil, hEV]
  rfl

/-- Witness for C10: single-entry verification of the second entry of a
concrete two-event log reports a broken chain. -/
theorem audit_single_entry_verification_breaks_chain_w :
    verify_log_integrity hid hid (buildLog hid hid [dA, dB]).entries
        (some (((buildLog hid hid [dA, dB]).entries.get ⟨1, by decide⟩).data.event_id))
      = .report
          { valid := false
            entries_checked := 1
            tampering_detected :=
              [⟨((buildLog hid hid [dA, dB]).entries.get ⟨1, by decide⟩).data.event_id,
                "Chain broken"⟩]
            last_verified_hash :=
              ((buildLog hid hid [dA, dB]).entries.get ⟨1, by decide⟩).current_hash } :=
  audit_single_entry_verification_breaks_chain hid hid (fun _ _ h => h)
    [dA, dB] (by decide) 1 (by decide) (by decide)

/-- C9: log_event takes no lock between reading the last_log_hash cache
and writing the new row, so the interleaving in which two concurrent
appends both read the cache before either commits produces two entries
with the same previous_hash (both the genesis hash): the chain forks. -/
theorem audit_concurrent_appends_share_previous_hash :
    (runSched hid hid ⟨initState hid, [⟨dA, .ready⟩, ⟨dB, .ready⟩]⟩
        [0, 1, 0, 1]).audit.entries.map (fun e => e.previous_hash)
      = [genesisHash hid, genesisHash hid] := by
  rfl

/-- C4 counterexample: with the audit store down, a risk-80 request whose
denial cannot be audited is forwarded to the handler (allowed) instead of
denied, so the pipeline does not fail closed. -/
theorem middleware_audit_failure_allows_request_cex :
    log_event_store hid hid false (initState hid) dA = .error "Failed to log event"
    ∧ (middleware_call hid hid false (initState hid) 80 dA dB).1.allowed = true :=
  ⟨rfl, rfl⟩

/-- C4 amended: when the durable append inside log_event fails, the error
does propagate out of log_event, but the middleware's catch-all except
block swallows it and runs call_next, so at every risk score the request
proceeds (allowed) and is unaudited: the pipeline fails open, not
closed. -/
theorem middleware_fails_open_on_audit_failure (hash hmacSign : String → String)
    (audit : AuditState) (risk_score : Int) (deniedEvent successEvent : LogData) :
    log_event_store hash hmacSign false audit deniedEvent = .error "Failed to log event"
    ∧ (middleware_call hash hmacSign false audit risk_score deniedEvent successEvent).1
        = ⟨true, false⟩ := by
  refine ⟨rfl, ?_⟩
  unfold middleware_call
  split <;> rfl

theorem mkAssessment_envelope (raw : Int) (tf an : List String) :
    ((mkAssessment raw tf an).allow_access = true
        ↔ (mkAssessment raw tf an).risk_score < 70)
    ∧ ((mkAssessment raw tf an).requires_mfa = true
        ↔ 60 < (mkAssessment raw tf an).risk_score)
    ∧ ((mkAssessment raw tf an).requires_approval = true
        ↔ 80 < (mkAssessment raw tf an).risk_score)
    ∧ ((mkAssessment raw tf an).risk_level = .TRUSTED
        ↔ (mkAssessment raw tf an).risk_score ≤ 20)
    ∧ ((mkAssessment raw tf an).risk_level = .LOW_RISK
        ↔ 20 < (mkAssessment raw tf an).risk_score
          ∧ (mkAssessment raw tf an).risk_score ≤ 40)
    ∧ ((mkAssessment raw tf an).risk_level = .MEDIUM_RISK
        ↔ 40 < (mkAssessment raw tf an).risk_score
          ∧ (mkAssessment raw tf an).risk_score ≤ 60)
    ∧ ((mkAssessment raw tf an).risk_level = .HIGH_RISK
        ↔ 60 < (mkAssessment raw tf an).risk_score
          ∧ (mkAssessment raw tf an).risk_score ≤ 80)
    ∧ ((mkAssessment raw tf an).risk_level = .CRITICAL
        ↔ 80 < (mkAssessment raw tf an).risk_score) := by
  unfold mkAssessment
  dsimp only
  refine ⟨by simp, by simp, by simp, ?_, ?_, ?_, ?_, ?_⟩ <;>
    (unfold riskLevelOf; split_ifs <;> simp_all <;> omega)

/-- C5: for every input, the returned envelope has allow_access iff the
returned risk_score is below 70, requires_mfa iff it exceeds 60,
requires_approval iff it exceeds 80, and the risk level matches the
20/40/60/80 thresholds, with CRITICAL otherwise. -/
theorem risk_envelope_policy (inp : RiskInput) :
    ((calculate_risk_score inp).allow_access = true
        ↔ (calculate_risk_score inp).risk_score < 70)
    ∧ ((calculate_risk_score inp).requires_mfa = true
        ↔ 60 < (calculate_risk_score inp).risk_score)
    ∧ ((calculate_risk_score inp).requires_approval = true
        ↔ 80 < (calculate_risk_score inp).risk_score)
    ∧ ((calculate_risk_score inp).risk_level = .TRUSTED
        ↔ (calculate_risk_score inp).risk_score ≤ 20)
    ∧ ((calculate_risk_score inp).risk_level = .LOW_RISK
        ↔ 20 < (calculate_risk_score inp).risk_score
          ∧ (calculate_risk_score inp).risk_score ≤ 40)
    ∧ ((calculate_risk_score inp).risk_level = .MEDIUM_RISK
        ↔ 40 < (calculate_risk_score inp).risk_score
          ∧ (calculate_risk_score inp).risk_score ≤ 60)
    ∧ ((calculate_risk_score inp).risk_level = .HIGH_RISK
        ↔ 60 < (calculate_risk_score inp).risk_score
          ∧ (calculate_risk_score inp).risk_score ≤ 80)
    ∧ ((calculate_risk_score inp).risk_level = .CRITICAL
        ↔ 80 < (calculate_risk_score inp).risk_score) :=
  mkAssessment_envelope (rawScore inp) (trustFactorsOf inp) (anomaliesOf inp)

/-- C6: for every input combination, the returned risk_score lies in the
interval from 0 to 100. -/
theorem risk_score_within_bounds (inp : RiskInput) :
    0 ≤ (calculate_risk_score inp).risk_score
    ∧ (calculate_risk_score inp).risk_score ≤ 100 := by
  show 0 ≤ max 0 (min 100 (rawScore inp)) ∧ max 0 (min 100 (rawScore inp)) ≤ 100
  exact ⟨le_max_left 0 _, max_le (by norm_num) (min_le_left _ _)⟩

/-- C8 counterexample: a first-sighting device (absent from the device
registry), a foreign country, 03:00 IST and action delete_incident score
exactly 80 when the IP lies in a recognized internal range; the level is
HIGH_RISK, not CRITICAL, and requires_approval is false. -/
theorem scenario_new_device_foreign_night_cex :
    (calculate_risk_score
        ⟨none, "Paris", "France", 22, none, "delete_incident", "10.0.0.1", 0⟩).risk_score = 80
    ∧ (calculate_risk_score
        ⟨none, "Paris", "France", 22, none, "delete_incident", "10.0.0.1", 0⟩).risk_level
      ≠ RiskLevel.CRITICAL
    ∧ (calculate_risk_score
        ⟨none, "Paris", "France", 22, none, "delete_incident", "10.0.0.1", 0⟩).requires_approval
      = false := by
  decide

theorem behaviorFactor_nonneg (ist_hour : Nat) (city : String) (b : Option Baseline) :
    0 ≤ (behaviorFactor ist_hour city b).1 ∧ (behaviorFactor ist_hour city b).1 ≤ 20 := by
  cases b with
  | none => simp [behaviorFactor]
  | some b =>
    unfold behaviorFactor
    dsimp only
    split_ifs <;> simp

theorem anomalyFactor_nonneg (recent : Nat) :
    0 ≤ (anomalyFactor recent).1 ∧ (anomalyFactor recent).1 ≤ 10 := by
  unfold anomalyFactor
  split_ifs <;> simp

/-- C8 amended: for a device absent from the device registry, a non-India
country, a local time of 03:00 IST (22:00 UTC server time), action
delete_incident and an IP outside the recognized internal ranges, the
returned risk_score is at least 80 (it is exactly 100), the level is
CRITICAL and requires_approval is true, for every city, baseline and
recent-anomaly count. -/
theorem unknown_device_foreign_night_external_ip_critical
    (city country ip : String) (baseline : Option Baseline) (recent : Nat)
    (hcountry : country ≠ "India") (hip : check_trusted_network ip = false) :
    80 ≤ (calculate_risk_score
        ⟨none, city, country, 22, baseline, "delete_incident", ip, recent⟩).risk_score
    ∧ (calculate_risk_score
        ⟨none, city, country, 22, baseline, "delete_incident", ip, recent⟩).risk_level
      = RiskLevel.CRITICAL
    ∧ (calculate_risk_score
        ⟨none, city, country, 22, baseline, "delete_incident", ip, recent⟩).requires_approval
      = true := by
  have h2 : (locationFactor city country).1 = 25 := by
    unfold locationFactor
    rw [if_pos hcountry]
  have h6 : (networkFactor ip).1 = 10 := by
    unfold networkFactor
    rw [if_neg (by simp [hip] : ¬(check_trusted_network ip = true))]
  have h4 := behaviorFactor_nonneg ((22 + 5) % 24) city baseline
  have h7 := anomalyFactor_nonneg recent
  have hraw : 100 ≤ rawScore
      ⟨none, city, country, 22, baseline, "delete_incident", ip, recent⟩ := by
    unfold rawScore
    dsimp only
    rw [h2, h6]
    have h1 : (deviceFactor (none : Option DeviceRow)).1 = 30 := by decide
    have h3 : (timeFactor ((22 + 5) % 24)).1 = 15 := by decide
    have h5 : actionFactor "delete_incident" = 20 := by decide
    rw [h1, h3, h5]
    omega
  have hscore : max 0 (min 100 (rawScore
      ⟨none, city, country, 22, baseline, "delete_incident", ip, recent⟩)) = 100 := by
    rw [min_eq_left hraw]
    decide
  refine ⟨?_, ?_, ?_⟩
  · show 80 ≤ max 0 (min 100 (rawScore
      ⟨none, city, country, 22, baseline, "delete_incident", ip, recent⟩))
    rw [hscore]
    decide
  · show riskLevelOf (max 0 (min 100 (rawScore
      ⟨none, city, country, 22, baseline, "delete_incident", ip, recent⟩))) = RiskLevel.CRITICAL
    rw [hscore]
    decide
  · show decide (80 < max 0 (min 100 (rawScore
      ⟨none, city, country, 22, baseline, "delete_incident", ip, recent⟩))) = true
    rw [hscore]
    decide

/-- Witness for the amended C8: concrete foreign-country external-IP
instance. -/
theorem unknown_device_foreign_night_external_ip_critical_w :
    80 ≤ (calculate_risk_score
        ⟨none, "Paris", "France", 22, none, "delete_incident", "8.8.8.8", 0⟩).risk_score
    ∧ (calculate_risk_score
        ⟨none, "Paris", "France", 22, none, "delete_incident", "8.8.8.8", 0⟩).risk_level
      = RiskLevel.CRITICAL
    ∧ (calculate_risk_score
        ⟨none, "Paris", "France", 22, none, "delete_incident", "8.8.8.8", 0⟩).requires_approval
      = true :=
  unknown_device_foreign_night_external_ip_critical "Paris" "France" "8.8.8.8"
    none 0 (by decide) (by decide)

theorem find_active_eq_none (st : ZTState) (session_id : String)
    (h : ∀ s ∈ st.sessions, s.session_id = session_id → s.is_active = false) :
    st.sessions.find? (fun s => s.session_id == session_id && s.is_active) = none := by
  rw [List.find?_eq_none]
  intro s hs hbad
  simp only [Bool.and_eq_true, beq_iff_eq] at hbad
  have := h s hs hbad.1
  rw [this] at hbad
  exact Bool.false_ne_true hbad.2

/-- C7: a verify_access call for a session id all of whose stored rows
have is_active false returns the invalid-session outcome with allowed
false, never allowed true; in particular this holds immediately after
terminate_session on any store. -/
theorem inactive_session_never_allowed (st : ZTState)
    (session_id user_id action resource : String) (ctx : ZTContext) (ts : String)
    (h : ∀ s ∈ st.sessions, s.session_id = session_id → s.is_active = false) :
    (verify_access st session_id user_id action resource ctx ts).1 = .invalidSession
    ∧ (verify_access st session_id user_id action resource ctx ts).1.allowed = false
    ∧ ∀ (st0 : ZTState) (reason : String),
        (verify_access (terminate_session st0 session_id reason)
          session_id user_id action resource ctx ts).1 = .invalidSession := by
  have hmain : ∀ st' : ZTState,
      (∀ s ∈ st'.sessions, s.session_id = session_id → s.is_active = false) →
      (verify_access st' session_id user_id action resource ctx ts).1
        = .invalidSession := by
    intro st' h'
    unfold verify_access
    rw [find_active_eq_none st' session_id h']
  refine ⟨hmain st h, ?_, ?_⟩
  · rw [hmain st h]
    rfl
  · intro st0 reason
    apply hmain
    intro s hs hsid
    simp only [terminate_session, List.mem_map] at hs
    obtain ⟨t, ht, heq⟩ := hs
    by_cases hb : (t.session_id == session_id) = true
    · rw [← heq]
      rw [if_pos hb]
    · rw [if_neg hb] at heq
      rw [← heq] at hsid
      exact absurd (beq_iff_eq.mpr hsid) hb

/-- Witness for C7: the store holding one inactive session S1 yields the
invalid-session outcome. -/
theorem inactive_session_never_allowed_w :
    (verify_access ztSample "S1" "u1" "view" "incident" ⟨"Delhi", "India", 5⟩ "t1").1
      = .invalidSession :=
  (inactive_session_never_allowed ztSample "S1" "u1" "view" "incident"
    ⟨"Delhi", "India", 5⟩ "t1" (by decide)).1

end RakshaNetra
